import Mathlib

/-!
Verification of the layout-editing core of "mb-tile-generator.py".

The embedding keeps the source representation: a grid cell holds the
serialization abbreviation string of its style token, exactly as the
Python script stores abbreviations such as "O", "TL" or "X" in
self.layout.  A border pattern is the dictionary of four booleans the
preset selector builds; the Python default argument pattern=None is
modelled with Option.
-/

namespace MBTile

/-- The ordered abbreviation list ABBREVS of the source. -/
def ABBREVS : List String := ["O", "R", "L", "BR", "BL", "TR", "TL", "B", "T", "X"]

/-- The ABBREV_TO_NAME dictionary of the source, as an association list in
the source insertion order. -/
def ABBREV_TO_NAME : List (String × String) :=
  [("O", "NORMAL"),
   ("R", "RIGHT_EDGE"),
   ("L", "LEFT_EDGE"),
   ("BR", "BOTTOM_RIGHT_CORNER"),
   ("BL", "BOTTOM_LEFT_CORNER"),
   ("TR", "TOP_RIGHT_CORNER"),
   ("TL", "TOP_LEFT_CORNER"),
   ("B", "BOTTOM_EDGE"),
   ("T", "TOP_EDGE"),
   ("X", "SKIP")]

/-- The NAME_TO_ABBREV dictionary of the source: the comprehension that
swaps each key and value of ABBREV_TO_NAME. -/
def NAME_TO_ABBREV : List (String × String) :=
  ABBREV_TO_NAME.map (fun p => (p.2, p.1))

/-- A border pattern: the four booleans of the preset dictionaries
(self._presets and self._preset_patterns in the source). -/
structure BorderPattern where
  top : Bool
  bottom : Bool
  left : Bool
  right : Bool
deriving DecidableEq

/-- The per-cell border resolution that _apply_preset_to_all inlines for
each cell: interior cells get the NORMAL abbreviation O, a boundary cell
without a supplied pattern also gets O, and otherwise the four corner
rules are tried before the four edge rules, first match winning.
pattern = none models the Python default argument pattern=None, which is
falsy in the `if is_border and pattern` guard. -/
def resolve (i j r c : Nat) (pattern : Option BorderPattern) : String :=
  let is_border : Bool := (i == 0) || (i == r - 1) || (j == 0) || (j == c - 1)
  match pattern with
  | none => "O"
  | some p =>
    if is_border then
      let top_flag := p.top
      let bottom_flag := p.bottom
      let left_flag := p.left
      let right_flag := p.right
      let is_top : Bool := i == 0
      let is_bottom : Bool := i == r - 1
      let is_left : Bool := j == 0
      let is_right : Bool := j == c - 1
      if is_top && is_left && top_flag && left_flag then "TL"
      else if is_top && is_right && top_flag && right_flag then "TR"
      else if is_bottom && is_left && bottom_flag && left_flag then "BL"
      else if is_bottom && is_right && bottom_flag && right_flag then "BR"
      else if is_top && top_flag then "T"
      else if is_bottom && bottom_flag then "B"
      else if is_left && left_flag then "L"
      else if is_right && right_flag then "R"
      else "O"
    else "O"

/-- Modelled from the spec: the reference contract of section 4.2 for the
resolver, written from the spec wording (step 1 position booleans, step 2
interior cells give NORMAL, step 3 boundary cell with no supplied pattern
gives NORMAL, step 4 the nine rules in the listed precedence order).
Tokens are represented by their serialization abbreviations. -/
def resolveSpec (row col numRows numCols : Nat) (pattern : Option BorderPattern) : String :=
  let isTop : Bool := row == 0
  let isBottom : Bool := row == numRows - 1
  let isLeft : Bool := col == 0
  let isRight : Bool := col == numCols - 1
  if !(isTop || isBottom || isLeft || isRight) then "O"
  else
    match pattern with
    | none => "O"
    | some p =>
      if isTop && isLeft && p.top && p.left then "TL"
      else if isTop && isRight && p.top && p.right then "TR"
      else if isBottom && isLeft && p.bottom && p.left then "BL"
      else if isBottom && isRight && p.bottom && p.right then "BR"
      else if isTop && p.top then "T"
      else if isBottom && p.bottom then "B"
      else if isLeft && p.left then "L"
      else if isRight && p.right then "R"
      else "O"

/-- The guard shared by the four corner rules of the source chain: true
exactly when one of the four corner rules matches. -/
def cornerRuleFires (i j r c : Nat) (p : BorderPattern) : Bool :=
  let is_top : Bool := i == 0
  let is_bottom : Bool := i == r - 1
  let is_left : Bool := j == 0
  let is_right : Bool := j == c - 1
  (is_top && is_left && p.top && p.left) ||
  (is_top && is_right && p.top && p.right) ||
  (is_bottom && is_left && p.bottom && p.left) ||
  (is_bottom && is_right && p.bottom && p.right)

/-- The four abbreviations the corner rules can produce. -/
def cornerTokens : List String := ["TL", "TR", "BL", "BR"]

/-- The nine abbreviations the resolver can produce. -/
def nineTokens : List String := ["O", "TL", "TR", "BL", "BR", "T", "B", "L", "R"]

/-- The default 3 by 3 layout the source falls back to when no LAYOUT
block can be parsed. -/
def defaultLayout : List (List String) :=
  [["TL", "T", "TR"], ["L", "O", "R"], ["BL", "B", "BR"]]

/-- The rectangularity predicate of the grid model: the layout has exactly
r rows and every one of them has exactly c columns. -/
def rect (layout : List (List String)) (r c : Nat) : Prop :=
  layout.length = r ∧ ∀ i, i < r → (layout.getD i []).length = c

instance rectDecidable (layout : List (List String)) (r c : Nat) :
    Decidable (rect layout r c) := by
  unfold rect; infer_instance

/-- The grid resize of _on_shape_change: the new layout is rebuilt row by
row, keeping self.layout[i][j] when i is below the old row count and j is
below the length of the first old row, and filling every other cell with
the NORMAL abbreviation O. -/
def resize (layout : List (List String)) (r c : Nat) : List (List String) :=
  (List.range r).map (fun i =>
    (List.range c).map (fun j =>
      if i < layout.length ∧ j < (layout.getD 0 []).length then
        (layout.getD i []).getD j "O"
      else "O"))

/-- The single error kind of the grid model: a cell index outside the
current dimensions, the IndexError a Python subscript raises. -/
inductive GridError where
  | outOfRange
deriving DecidableEq

/-- Reading self.layout[i][j]: succeeds for indices inside the current
dimensions and fails with outOfRange otherwise. -/
def Grid.get (layout : List (List String)) (i j : Nat) : Except GridError String :=
  match layout[i]? with
  | none => Except.error GridError.outOfRange
  | some row =>
    match row[j]? with
    | none => Except.error GridError.outOfRange
    | some v => Except.ok v

/-- Writing self.layout[i][j] = v, as done by _apply_preset_to_selected
and _set_palette_choice: succeeds for indices inside the current
dimensions and fails with outOfRange otherwise. -/
def Grid.set (layout : List (List String)) (i j : Nat) (v : String) :
    Except GridError (List (List String)) :=
  match layout[i]? with
  | none => Except.error GridError.outOfRange
  | some row =>
    if j < row.length then Except.ok (layout.set i (row.set j v))
    else Except.error GridError.outOfRange

/-- Models the padding loop of _apply_preset_to_all:
while len(layout) is at most i, append a row of c NORMAL cells. -/
def padRows (layout : List (List String)) (i c : Nat) : List (List String) :=
  layout ++ List.replicate (i + 1 - layout.length) (List.replicate c "O")

/-- Models the padding loop of _apply_preset_to_all:
while len(layout[i]) is at most j, append a NORMAL cell. -/
def padCols (row : List String) (j : Nat) : List String :=
  row ++ List.replicate (j + 1 - row.length) "O"

/-- One iteration of the cell loop of _apply_preset_to_all: pad the layout
so that cell (i, j) exists, then overwrite it with the resolved token. -/
def writeCell (r c : Nat) (pattern : Option BorderPattern)
    (layout : List (List String)) (i j : Nat) : List (List String) :=
  let layout2 := padRows layout i c
  let row2 := padCols (layout2.getD i []) j
  layout2.set i (row2.set j (resolve i j r c pattern))

/-- The whole of _apply_preset_to_all: run the cell loop over every
(i, j) with i below r and j below c, in row-major order.  The lbl
argument is the preset abbreviation the source passes alongside the
pattern; the source never reads it when computing cell values. -/
def applyPattern (layout : List (List String)) (r c : Nat) (lbl : String)
    (pattern : Option BorderPattern) : List (List String) :=
  (List.range r).foldl
    (fun acc i => (List.range c).foldl (fun acc2 j => writeCell r c pattern acc2 i j) acc)
    layout

lemma corner_chain_mem (b1 b2 b3 b4 t b l ri : Bool)
    (h : ((b1 && b3 && t && l) || (b1 && b4 && t && ri) ||
          (b2 && b3 && b && l) || (b2 && b4 && b && ri)) = true) :
    (if b1 || b2 || b3 || b4 then
      if b1 && b3 && t && l then "TL"
      else if b1 && b4 && t && ri then "TR"
      else if b2 && b3 && b && l then "BL"
      else if b2 && b4 && b && ri then "BR"
      else if b1 && t then "T"
      else if b2 && b then "B"
      else if b3 && l then "L"
      else if b4 && ri then "R"
      else "O"
    else "O") ∈ cornerTokens := by
  revert h
  cases b1 <;> cases b2 <;> cases b3 <;> cases b4 <;>
    cases t <;> cases b <;> cases l <;> cases ri <;> decide

lemma resolve_mem_corner_of_fires (row col r c : Nat) (p : BorderPattern)
    (h : cornerRuleFires row col r c p = true) :
    resolve row col r c (some p) ∈ cornerTokens := by
  obtain ⟨t, b, l, ri⟩ := p
  exact corner_chain_mem (row == 0) (row == r - 1) (col == 0) (col == c - 1) t b l ri h

/-- Claim C2 counterexample: the style-token set of the source has ten
values, not twelve; neither LEFT_RIGHT_EDGES nor TOP_BOTTOM_EDGES occurs
among the names of ABBREV_TO_NAME. -/
theorem C2_counterexample :
    (ABBREV_TO_NAME.map Prod.snd).length = 10 ∧
    "LEFT_RIGHT_EDGES" ∉ ABBREV_TO_NAME.map Prod.snd ∧
    "TOP_BOTTOM_EDGES" ∉ ABBREV_TO_NAME.map Prod.snd := by
  decide

/-- Claim C2 (amended): StyleToken is a closed enumerated set of exactly
ten distinct values, NORMAL, RIGHT_EDGE, LEFT_EDGE, BOTTOM_RIGHT_CORNER,
BOTTOM_LEFT_CORNER, TOP_RIGHT_CORNER, TOP_LEFT_CORNER, BOTTOM_EDGE,
TOP_EDGE and SKIP, and every one of them has a short textual abbreviation
used in serialization (NAME_TO_ABBREV finds one for each name). -/
theorem C2_ten_tokens :
    ABBREV_TO_NAME.map Prod.snd =
      ["NORMAL", "RIGHT_EDGE", "LEFT_EDGE", "BOTTOM_RIGHT_CORNER",
       "BOTTOM_LEFT_CORNER", "TOP_RIGHT_CORNER", "TOP_LEFT_CORNER",
       "BOTTOM_EDGE", "TOP_EDGE", "SKIP"] ∧
    (ABBREV_TO_NAME.map Prod.snd).Nodup ∧
    ABBREV_TO_NAME.map Prod.fst = ABBREVS ∧
    ∀ n ∈ ABBREV_TO_NAME.map Prod.snd, (NAME_TO_ABBREV.lookup n).isSome := by
  decide

/-- Claim C4: for all dimensions at least 1 by 1 and every pattern
(including none), every interior cell resolves to the NORMAL token. -/
theorem C4_interior_normal :
    ∀ (r c row col : Nat) (p : Option BorderPattern),
      0 < row → row < r - 1 → 0 < col → col < c - 1 →
      resolve row col r c p = "O" := by
  intro r c row col p h1 h2 h3 h4
  have e1 : (row == 0) = false := by simp only [beq_eq_false_iff_ne]; omega
  have e2 : (row == r - 1) = false := by simp only [beq_eq_false_iff_ne]; omega
  have e3 : (col == 0) = false := by simp only [beq_eq_false_iff_ne]; omega
  have e4 : (col == c - 1) = false := by simp only [beq_eq_false_iff_ne]; omega
  cases p with
  | none => rfl
  | some q => simp [resolve, e1, e2, e3, e4]

/-- Witness for C4 at the interior cell (1, 1) of a 3 by 3 grid with the
all-sides pattern. -/
theorem C4_interior_normal_witness :
    resolve 1 1 3 3 (some ⟨true, true, true, true⟩) = "O" :=
  C4_interior_normal 3 3 1 1 (some ⟨true, true, true, true⟩)
    (by decide) (by decide) (by decide) (by decide)

/-- Claim C5 counterexample: in the 1 by 3 grid, cell (0, 1) with the
top-only pattern receives TOP_EDGE, a token that is not NORMAL and is not
produced by a corner rule. -/
theorem C5_counterexample :
    resolve 0 1 1 3 (some ⟨true, false, false, false⟩) = "T" ∧
    "T" ∉ cornerTokens ∧ "T" ≠ "O" := by
  decide

/-- Claim C5 (amended): in a 1 by N or N by 1 grid every cell satisfies
both the top and bottom (or both the left and right) position flags, and
the corner rules are evaluated first: whenever some corner rule matches,
the resolved token is a corner token, so an edge rule never fires when a
corner rule matches. -/
theorem C5_degenerate :
    ∀ (r c row col : Nat) (p : BorderPattern),
      row < r → col < c → (r = 1 ∨ c = 1) →
      ((row = 0 ∧ row = r - 1) ∨ (col = 0 ∧ col = c - 1)) ∧
      (cornerRuleFires row col r c p = true →
        resolve row col r c (some p) ∈ cornerTokens) := by
  intro r c row col p hr hc hdeg
  refine ⟨?_, fun hfire => resolve_mem_corner_of_fires row col r c p hfire⟩
  rcases hdeg with h | h
  · left; omega
  · right; omega

/-- Witness for C5 at cell (0, 0) of a 1 by 3 grid with the all-sides
pattern, which resolves through the first corner rule. -/
theorem C5_degenerate_witness :
    ((0 = 0 ∧ 0 = 1 - 1) ∨ (0 = 0 ∧ 0 = 3 - 1)) ∧
    (cornerRuleFires 0 0 1 3 ⟨true, true, true, true⟩ = true →
      resolve 0 0 1 3 (some ⟨true, true, true, true⟩) ∈ cornerTokens) :=
  C5_degenerate 1 3 0 0 ⟨true, true, true, true⟩
    (by decide) (by decide) (Or.inl rfl)

/-- Claim C6: a 1 by 1 grid with the all-sides pattern resolves to
TOP_LEFT_CORNER, the first rule in the precedence order. -/
theorem C6_one_by_one :
    resolve 0 0 1 1 (some ⟨true, true, true, true⟩) = "TL" := by
  decide

lemma chain_eq_spec_chain (b1 b2 b3 b4 t b l ri : Bool) :
    (if b1 || b2 || b3 || b4 then
      if b1 && b3 && t && l then "TL"
      else if b1 && b4 && t && ri then "TR"
      else if b2 && b3 && b && l then "BL"
      else if b2 && b4 && b && ri then "BR"
      else if b1 && t then "T"
      else if b2 && b then "B"
      else if b3 && l then "L"
      else if b4 && ri then "R"
      else "O"
    else "O") =
    (if !(b1 || b2 || b3 || b4) then "O"
     else
      if b1 && b3 && t && l then "TL"
      else if b1 && b4 && t && ri then "TR"
      else if b2 && b3 && b && l then "BL"
      else if b2 && b4 && b && ri then "BR"
      else if b1 && t then "T"
      else if b2 && b then "B"
      else if b3 && l then "L"
      else if b4 && ri then "R"
      else "O") := by
  cases b1 <;> cases b2 <;> cases b3 <;> cases b4 <;>
    cases t <;> cases b <;> cases l <;> cases ri <;> decide

/-- Claim C1: on every cell of a grid of positive dimensions and for
every pattern, including the absent one, the resolver of the source
agrees with the reference contract of spec section 4.2. -/
theorem C1_resolve_matches_spec :
    ∀ (row col r c : Nat) (p : Option BorderPattern),
      1 ≤ r → 1 ≤ c → row < r → col < c →
      resolve row col r c p = resolveSpec row col r c p := by
  intro row col r c p _ _ _ _
  cases p with
  | none =>
    simp only [resolve, resolveSpec]
    split <;> rfl
  | some q =>
    obtain ⟨t, b, l, ri⟩ := q
    exact chain_eq_spec_chain (row == 0) (row == r - 1) (col == 0) (col == c - 1) t b l ri

/-- Witness for C1 at cell (0, 0) of a 2 by 2 grid with the pattern that
sets top and left. -/
theorem C1_resolve_matches_spec_witness :
    resolve 0 0 2 2 (some ⟨true, false, true, false⟩) =
      resolveSpec 0 0 2 2 (some ⟨true, false, true, false⟩) :=
  C1_resolve_matches_spec 0 0 2 2 (some ⟨true, false, true, false⟩)
    (by decide) (by decide) (by decide) (by decide)

lemma getD_set_self' {α : Type} (l : List α) (i : Nat) (a d : α)
    (h : i < l.length) : (l.set i a).getD i d = a := by
  simp [List.getD_eq_getElem?_getD, List.getElem?_set_self h]

lemma getD_set_of_ne {α : Type} (l : List α) (i k : Nat) (a d : α)
    (h : i ≠ k) : (l.set i a).getD k d = l.getD k d := by
  simp [List.getD_eq_getElem?_getD, List.getElem?_set_ne h]

lemma padRows_of_lt (layout : List (List String)) (i c : Nat)
    (h : i < layout.length) : padRows layout i c = layout := by
  have e : i + 1 - layout.length = 0 := by omega
  simp [padRows, e]

lemma padCols_of_lt (row : List String) (j : Nat) (h : j < row.length) :
    padCols row j = row := by
  have e : j + 1 - row.length = 0 := by omega
  simp [padCols, e]

lemma rect_set (layout : List (List String)) (r c i : Nat) (row : List String)
    (hrect : rect layout r c) (hrow : row.length = c) :
    rect (layout.set i row) r c := by
  obtain ⟨hlen, hall⟩ := hrect
  refine ⟨by simp [hlen], fun k hk => ?_⟩
  by_cases hik : i = k
  · subst hik
    have hil : i < layout.length := by omega
    rw [getD_set_self' _ _ _ _ hil]
    exact hrow
  · rw [getD_set_of_ne _ _ _ _ _ hik]
    exact hall k hk

/-- The value of cell (i, j): row i of the layout, then entry j, with the
NORMAL abbreviation as the out-of-range default. -/
def cellD (layout : List (List String)) (i j : Nat) : String :=
  (layout.getD i []).getD j "O"

lemma writeCell_of_rect (r c : Nat) (p : Option BorderPattern)
    (layout : List (List String)) (i j : Nat)
    (hrect : rect layout r c) (hi : i < r) (hj : j < c) :
    writeCell r c p layout i j =
      layout.set i ((layout.getD i []).set j (resolve i j r c p)) := by
  obtain ⟨hlen, hall⟩ := hrect
  have h1 : i < layout.length := by omega
  have h2 : j < (layout.getD i []).length := by rw [hall i hi]; omega
  simp only [writeCell]
  rw [padRows_of_lt layout i c h1, padCols_of_lt _ j h2]

lemma rect_writeCell (r c : Nat) (p : Option BorderPattern)
    (layout : List (List String)) (i j : Nat)
    (hrect : rect layout r c) (hi : i < r) (hj : j < c) :
    rect (writeCell r c p layout i j) r c := by
  rw [writeCell_of_rect r c p layout i j hrect hi hj]
  exact rect_set _ _ _ _ _ hrect (by rw [List.length_set]; exact hrect.2 i hi)

lemma cellD_writeCell (r c : Nat) (p : Option BorderPattern)
    (layout : List (List String)) (i j i2 j2 : Nat)
    (hrect : rect layout r c) (hi : i < r) (hj : j < c)
    (hi2 : i2 < r) (hj2 : j2 < c) :
    cellD (writeCell r c p layout i j) i2 j2 =
      if i2 = i ∧ j2 = j then resolve i j r c p else cellD layout i2 j2 := by
  obtain ⟨hlen, hall⟩ := hrect
  rw [writeCell_of_rect r c p layout i j ⟨hlen, hall⟩ hi hj]
  unfold cellD
  by_cases h1 : i2 = i
  · subst h1
    rw [getD_set_self' _ _ _ _ (by omega)]
    by_cases h2 : j2 = j
    · subst h2
      rw [getD_set_self' _ _ _ _ (by rw [hall i2 hi2]; omega)]
      simp
    · rw [getD_set_of_ne _ _ _ _ _ (fun hh => h2 hh.symm)]
      simp [h2]
  · rw [getD_set_of_ne _ _ _ _ _ (fun hh => h1 hh.symm)]
    simp [h1]

lemma innerLoop_spec (r c : Nat) (p : Option BorderPattern) (i : Nat) (hi : i < r) :
    ∀ (n : Nat), n ≤ c → ∀ (acc : List (List String)), rect acc r c →
      rect ((List.range n).foldl (fun a2 j => writeCell r c p a2 i j) acc) r c ∧
      ∀ i2 j2, i2 < r → j2 < c →
        cellD ((List.range n).foldl (fun a2 j => writeCell r c p a2 i j) acc) i2 j2 =
          if i2 = i ∧ j2 < n then resolve i j2 r c p else cellD acc i2 j2 := by
  intro n
  induction n with
  | zero =>
    intro _ acc hacc
    refine ⟨hacc, fun i2 j2 _ _ => ?_⟩
    simp
  | succ m ih =>
    intro hm acc hacc
    obtain ⟨ihrect, ihcell⟩ := ih (by omega) acc hacc
    constructor
    · rw [List.range_succ, List.foldl_append]
      simp only [List.foldl_cons, List.foldl_nil]
      exact rect_writeCell r c p _ i m ihrect hi (by omega)
    · intro i2 j2 hi2 hj2
      rw [List.range_succ, List.foldl_append]
      simp only [List.foldl_cons, List.foldl_nil]
      rw [cellD_writeCell r c p _ i m i2 j2 ihrect hi (by omega) hi2 hj2]
      rw [ihcell i2 j2 hi2 hj2]
      by_cases h1 : i2 = i
      · subst h1
        by_cases h2 : j2 = m
        · subst h2
          simp [Nat.lt_succ_self]
        · have e : (j2 < m + 1) = (j2 < m) := by
            apply propext; omega
          simp [h2, e]
      · simp [h1]

lemma outerLoop_spec (r c : Nat) (p : Option BorderPattern) :
    ∀ (m : Nat), m ≤ r → ∀ (acc : List (List String)), rect acc r c →
      rect ((List.range m).foldl
        (fun acc2 i => (List.range c).foldl (fun a2 j => writeCell r c p a2 i j) acc2)
        acc) r c ∧
      ∀ i2 j2, i2 < r → j2 < c →
        cellD ((List.range m).foldl
          (fun acc2 i => (List.range c).foldl (fun a2 j => writeCell r c p a2 i j) acc2)
          acc) i2 j2 =
          if i2 < m then resolve i2 j2 r c p else cellD acc i2 j2 := by
  intro m
  induction m with
  | zero =>
    intro _ acc hacc
    refine ⟨hacc, fun i2 j2 _ _ => ?_⟩
    simp
  | succ m ih =>
    intro hm acc hacc
    obtain ⟨ihrect, ihcell⟩ := ih (by omega) acc hacc
    obtain ⟨inrect, incell⟩ := innerLoop_spec r c p m (by omega) c le_rfl _ ihrect
    constructor
    · rw [List.range_succ, List.foldl_append]
      simp only [List.foldl_cons, List.foldl_nil]
      exact inrect
    · intro i2 j2 hi2 hj2
      rw [List.range_succ, List.foldl_append]
      simp only [List.foldl_cons, List.foldl_nil]
      rw [incell i2 j2 hi2 hj2, ihcell i2 j2 hi2 hj2]
      by_cases h1 : i2 = m
      · subst h1
        have e : ¬(i2 < i2) := by omega
        simp [hj2, e, Nat.lt_succ_self]
      · have e : (i2 < m + 1) = (i2 < m) := by
          apply propext; omega
        simp [h1, e]

lemma applyPattern_rect (layout : List (List String)) (r c : Nat)
    (lbl : String) (p : Option BorderPattern) (hrect : rect layout r c) :
    rect (applyPattern layout r c lbl p) r c :=
  (outerLoop_spec r c p r le_rfl layout hrect).1

lemma applyPattern_cellD (layout : List (List String)) (r c : Nat)
    (lbl : String) (p : Option BorderPattern) (i j : Nat)
    (hrect : rect layout r c) (hi : i < r) (hj : j < c) :
    cellD (applyPattern layout r c lbl p) i j = resolve i j r c p := by
  have h := (outerLoop_spec r c p r le_rfl layout hrect).2 i j hi hj
  simpa [applyPattern, hi] using h

lemma Grid.get_of_rect (layout : List (List String)) (r c i j : Nat)
    (hrect : rect layout r c) (hi : i < r) (hj : j < c) :
    Grid.get layout i j = Except.ok (cellD layout i j) := by
  obtain ⟨hlen, hall⟩ := hrect
  have h1 : i < layout.length := by omega
  have h2 : j < (layout.getD i []).length := by rw [hall i hi]; omega
  have e1 : layout[i]? = some (layout.getD i []) := by
    rw [List.getD_eq_getElem?_getD, List.getElem?_eq_getElem h1]
    rfl
  have e2 : (layout.getD i [])[j]? = some ((layout.getD i []).getD j "O") := by
    rw [List.getD_eq_getElem?_getD (layout.getD i []) j "O",
      List.getElem?_eq_getElem h2]
    rfl
  simp only [Grid.get, cellD, e1, e2]

lemma Grid.get_err_of_out (layout : List (List String)) (r c i j : Nat)
    (hrect : rect layout r c) (hout : ¬(i < r ∧ j < c)) :
    Grid.get layout i j = Except.error GridError.outOfRange := by
  obtain ⟨hlen, hall⟩ := hrect
  by_cases hi : i < r
  · have hj : c ≤ j := by omega
    have h1 : i < layout.length := by omega
    have e1 : layout[i]? = some (layout.getD i []) := by
      rw [List.getD_eq_getElem?_getD, List.getElem?_eq_getElem h1]
      rfl
    have e2 : (layout.getD i [])[j]? = none := by
      apply List.getElem?_eq_none
      rw [hall i hi]; omega
    simp only [Grid.get, e1, e2]
  · have e1 : layout[i]? = none := by
      apply List.getElem?_eq_none
      omega
    simp only [Grid.get, e1]

lemma Grid.set_of_rect (layout : List (List String)) (r c i j : Nat)
    (v : String) (hrect : rect layout r c) (hi : i < r) (hj : j < c) :
    Grid.set layout i j v =
      Except.ok (layout.set i ((layout.getD i []).set j v)) := by
  obtain ⟨hlen, hall⟩ := hrect
  have h1 : i < layout.length := by omega
  have h2 : j < (layout.getD i []).length := by rw [hall i hi]; omega
  have e1 : layout[i]? = some (layout.getD i []) := by
    rw [List.getD_eq_getElem?_getD, List.getElem?_eq_getElem h1]
    rfl
  simp only [Grid.set, e1, if_pos h2]

lemma Grid.set_err_of_out (layout : List (List String)) (r c i j : Nat)
    (v : String) (hrect : rect layout r c) (hout : ¬(i < r ∧ j < c)) :
    Grid.set layout i j v = Except.error GridError.outOfRange := by
  obtain ⟨hlen, hall⟩ := hrect
  by_cases hi : i < r
  · have h1 : i < layout.length := by omega
    have e1 : layout[i]? = some (layout.getD i []) := by
      rw [List.getD_eq_getElem?_getD, List.getElem?_eq_getElem h1]
      rfl
    have h2 : ¬(j < (layout.getD i []).length) := by rw [hall i hi]; omega
    simp only [Grid.set, e1, if_neg h2]
  · have e1 : layout[i]? = none := by
      apply List.getElem?_eq_none
      omega
    simp only [Grid.set, e1]

lemma getD_map_range {α : Type} (n k : Nat) (f : Nat → α) (d : α)
    (hk : k < n) : ((List.range n).map f).getD k d = f k := by
  have h : k < ((List.range n).map f).length := by simp; omega
  rw [List.getD_eq_getElem _ _ h]
  simp

lemma rect_resize (layout : List (List String)) (r2 c2 : Nat) :
    rect (resize layout r2 c2) r2 c2 := by
  refine ⟨by simp [resize], fun i hi => ?_⟩
  unfold resize
  rw [getD_map_range r2 i _ [] hi]
  simp

lemma resize_cellD (layout : List (List String)) (r c r2 c2 i j : Nat)
    (hrect : rect layout r c) (hi : i < r2) (hj : j < c2) :
    cellD (resize layout r2 c2) i j =
      if i < r ∧ j < c then cellD layout i j else "O" := by
  obtain ⟨hlen, hall⟩ := hrect
  unfold cellD resize
  rw [getD_map_range r2 i _ [] hi, getD_map_range c2 j _ "O" hj]
  by_cases hr0 : 0 < r
  · have hc0 : (layout.getD 0 []).length = c := hall 0 hr0
    rw [hlen, hc0]
  · have hr : r = 0 := by omega
    subst hr
    have hnil : layout = [] := List.length_eq_zero.mp hlen
    subst hnil
    simp

lemma chain_mem_nine (b1 b2 b3 b4 t b l ri : Bool) :
    (if b1 || b2 || b3 || b4 then
      if b1 && b3 && t && l then "TL"
      else if b1 && b4 && t && ri then "TR"
      else if b2 && b3 && b && l then "BL"
      else if b2 && b4 && b && ri then "BR"
      else if b1 && t then "T"
      else if b2 && b then "B"
      else if b3 && l then "L"
      else if b4 && ri then "R"
      else "O"
    else "O") ∈ nineTokens := by
  cases b1 <;> cases b2 <;> cases b3 <;> cases b4 <;>
    cases t <;> cases b <;> cases l <;> cases ri <;> decide

lemma resolve_mem_nine (i j r c : Nat) (p : Option BorderPattern) :
    resolve i j r c p ∈ nineTokens := by
  cases p with
  | none => simp [resolve, nineTokens]
  | some q =>
    obtain ⟨t, b, l, ri⟩ := q
    exact chain_mem_nine (i == 0) (i == r - 1) (j == 0) (j == c - 1) t b l ri

/-- Claim C3: resizing a rectangular grid yields a grid of exactly the
requested dimensions, keeping every cell that existed before and filling
every other cell with NORMAL; in particular the 3 by 3 default resized to
2 by 5 and back to 3 by 3 gets an all-NORMAL re-added row. -/
theorem C3_resize_spec :
    ∀ (layout : List (List String)) (r c r2 c2 : Nat), rect layout r c →
      (rect (resize layout r2 c2) r2 c2 ∧
       ∀ i j, i < r2 → j < c2 →
         cellD (resize layout r2 c2) i j =
           if i < r ∧ j < c then cellD layout i j else "O") ∧
      resize (resize defaultLayout 2 5) 3 3 =
        [["TL", "T", "TR"], ["L", "O", "R"], ["O", "O", "O"]] := by
  intro layout r c r2 c2 hrect
  refine ⟨⟨rect_resize layout r2 c2,
    fun i j hi hj => resize_cellD layout r c r2 c2 i j hrect hi hj⟩, ?_⟩
  decide

/-- Witness for C3 at the default 3 by 3 layout resized to 2 by 5. -/
theorem C3_resize_spec_witness :
    (rect (resize defaultLayout 2 5) 2 5 ∧
     ∀ i j, i < 2 → j < 5 →
       cellD (resize defaultLayout 2 5) i j =
         if i < 3 ∧ j < 3 then cellD defaultLayout i j else "O") ∧
    resize (resize defaultLayout 2 5) 3 3 =
      [["TL", "T", "TR"], ["L", "O", "R"], ["O", "O", "O"]] :=
  C3_resize_spec defaultLayout 3 3 2 5 (by decide)

/-- Claim C7: after the bulk application of a pattern, reading any cell
through Grid.get gives exactly what the resolver returns for that cell
and the grid dimensions: the bulk path and the single-cell path never
diverge. -/
theorem C7_apply_matches_resolve :
    ∀ (layout : List (List String)) (r c : Nat) (lbl : String)
      (p : Option BorderPattern) (i j : Nat),
      rect layout r c → i < r → j < c →
      Grid.get (applyPattern layout r c lbl p) i j =
        Except.ok (resolve i j r c p) := by
  intro layout r c lbl p i j hrect hi hj
  rw [Grid.get_of_rect (applyPattern layout r c lbl p) r c i j
    (applyPattern_rect layout r c lbl p hrect) hi hj]
  rw [applyPattern_cellD layout r c lbl p i j hrect hi hj]

/-- Witness for C7 at cell (0, 2) of the default layout with the
all-sides pattern. -/
theorem C7_apply_matches_resolve_witness :
    Grid.get (applyPattern defaultLayout 3 3 "X" (some ⟨true, true, true, true⟩)) 0 2 =
      Except.ok (resolve 0 2 3 3 (some ⟨true, true, true, true⟩)) :=
  C7_apply_matches_resolve defaultLayout 3 3 "X" (some ⟨true, true, true, true⟩) 0 2
    (by decide) (by decide) (by decide)

/-- Claim C8: Grid.get and Grid.set succeed exactly on indices inside the
current dimensions, the only error either can produce is outOfRange, and
reading any valid cell after the bulk pattern application always
succeeds (the bulk path is total over the valid domain). -/
theorem C8_only_out_of_range :
    ∀ (layout : List (List String)) (r c i j : Nat) (v : String),
      rect layout r c →
      ((∃ t, Grid.get layout i j = Except.ok t) ↔ (i < r ∧ j < c)) ∧
      ((∃ out, Grid.set layout i j v = Except.ok out) ↔ (i < r ∧ j < c)) ∧
      (∀ e, Grid.get layout i j = Except.error e → e = GridError.outOfRange) ∧
      (∀ e, Grid.set layout i j v = Except.error e → e = GridError.outOfRange) ∧
      (∀ (lbl : String) (p : Option BorderPattern), i < r → j < c →
        ∃ t, Grid.get (applyPattern layout r c lbl p) i j = Except.ok t) := by
  intro layout r c i j v hrect
  refine ⟨⟨?_, ?_⟩, ⟨?_, ?_⟩, ?_, ?_, ?_⟩
  · rintro ⟨t, ht⟩
    by_contra hout
    rw [Grid.get_err_of_out layout r c i j hrect hout] at ht
    exact Except.noConfusion ht
  · rintro ⟨hi, hj⟩
    exact ⟨cellD layout i j, Grid.get_of_rect layout r c i j hrect hi hj⟩
  · rintro ⟨out, hout⟩
    by_contra hng
    rw [Grid.set_err_of_out layout r c i j v hrect hng] at hout
    exact Except.noConfusion hout
  · rintro ⟨hi, hj⟩
    exact ⟨_, Grid.set_of_rect layout r c i j v hrect hi hj⟩
  · intro e _
    cases e
    rfl
  · intro e _
    cases e
    rfl
  · intro lbl p hi hj
    refine ⟨resolve i j r c p, ?_⟩
    rw [Grid.get_of_rect _ r c i j (applyPattern_rect layout r c lbl p hrect) hi hj,
      applyPattern_cellD layout r c lbl p i j hrect hi hj]

/-- Witness for C8 at cell (1, 2) of the default layout. -/
theorem C8_only_out_of_range_witness :
    ((∃ t, Grid.get defaultLayout 1 2 = Except.ok t) ↔ (1 < 3 ∧ 2 < 3)) ∧
    ((∃ out, Grid.set defaultLayout 1 2 "X" = Except.ok out) ↔ (1 < 3 ∧ 2 < 3)) ∧
    (∀ e, Grid.get defaultLayout 1 2 = Except.error e → e = GridError.outOfRange) ∧
    (∀ e, Grid.set defaultLayout 1 2 "X" = Except.error e → e = GridError.outOfRange) ∧
    (∀ (lbl : String) (p : Option BorderPattern), 1 < 3 → 2 < 3 →
      ∃ t, Grid.get (applyPattern defaultLayout 3 3 lbl p) 1 2 = Except.ok t) :=
  C8_only_out_of_range defaultLayout 3 3 1 2 "X" (by decide)

/-- Claim C9: the rectangularity invariant holds for the default layout
the editor starts from and is preserved by resize (for positive requested
dimensions), by the per-cell write, and by the bulk pattern
application. -/
theorem C9_invariant :
    rect defaultLayout 3 3 ∧
    (∀ (layout : List (List String)) (r2 c2 : Nat), 1 ≤ r2 → 1 ≤ c2 →
      rect (resize layout r2 c2) r2 c2) ∧
    (∀ (layout out : List (List String)) (r c i j : Nat) (v : String),
      rect layout r c → Grid.set layout i j v = Except.ok out → rect out r c) ∧
    (∀ (layout : List (List String)) (r c : Nat) (lbl : String)
      (p : Option BorderPattern), rect layout r c →
      rect (applyPattern layout r c lbl p) r c) := by
  refine ⟨by decide, fun layout r2 c2 _ _ => rect_resize layout r2 c2, ?_,
    fun layout r c lbl p h => applyPattern_rect layout r c lbl p h⟩
  intro layout out r c i j v hrect hset
  by_cases hin : i < r ∧ j < c
  · rw [Grid.set_of_rect layout r c i j v hrect hin.1 hin.2] at hset
    injection hset with hout
    rw [← hout]
    exact rect_set layout r c i _ hrect
      (by rw [List.length_set]; exact hrect.2 i hin.1)
  · rw [Grid.set_err_of_out layout r c i j v hrect hin] at hset
    exact Except.noConfusion hset

/-- Witness for C9: resize and bulk application instantiated on the
default layout. -/
theorem C9_invariant_witness :
    rect (resize defaultLayout 2 5) 2 5 ∧
    rect (applyPattern defaultLayout 3 3 "O" none) 3 3 :=
  ⟨C9_invariant.2.1 defaultLayout 2 5 (by decide) (by decide),
   C9_invariant.2.2.2 defaultLayout 3 3 "O" none (by decide)⟩

/-- Claim C10: every cell the bulk application writes holds one of the
nine resolver tokens, never SKIP, and the preset abbreviation label
passed alongside the pattern has no influence on the cell values. -/
theorem C10_nine_tokens :
    ∀ (layout : List (List String)) (r c : Nat) (lbl lbl2 : String)
      (p : Option BorderPattern) (i j : Nat),
      rect layout r c → i < r → j < c →
      (∃ t, Grid.get (applyPattern layout r c lbl p) i j = Except.ok t ∧
        t ∈ nineTokens ∧ t ≠ "X") ∧
      applyPattern layout r c lbl p = applyPattern layout r c lbl2 p := by
  intro layout r c lbl lbl2 p i j hrect hi hj
  have hmem := resolve_mem_nine i j r c p
  refine ⟨⟨resolve i j r c p, ?_, hmem, fun he => ?_⟩, rfl⟩
  · rw [Grid.get_of_rect _ r c i j (applyPattern_rect layout r c lbl p hrect) hi hj,
      applyPattern_cellD layout r c lbl p i j hrect hi hj]
  · rw [he] at hmem
    exact absurd hmem (by decide)

/-- Witness for C10 at cell (0, 0) of the default layout with the
all-sides pattern and two different labels. -/
theorem C10_nine_tokens_witness :
    (∃ t, Grid.get (applyPattern defaultLayout 3 3 "X" (some ⟨true, true, true, true⟩)) 0 0 =
        Except.ok t ∧ t ∈ nineTokens ∧ t ≠ "X") ∧
    applyPattern defaultLayout 3 3 "X" (some ⟨true, true, true, true⟩) =
      applyPattern defaultLayout 3 3 "O" (some ⟨true, true, true, true⟩) :=
  C10_nine_tokens defaultLayout 3 3 "X" "O" (some ⟨true, true, true, true⟩) 0 0
    (by decide) (by decide) (by decide)

end MBTile
